import Mathlib

/-!
Verification development for the FileTransferApp transfer protocol engine.

The definitions below are a shallow embedding of the Python sources under
`python code/` (config.py, utils.py, transfer_core/helpers.py,
transfer_core/folder_handler.py, transfer_core/single_file_handler.py,
transfer_core/handshake.py, transfer_core/server.py).  Byte strings from the
wire protocol are modelled as `List Char` (all protocol tokens are ASCII, and
the separator byte 0x7C cannot occur inside a UTF-8 continuation sequence, so
byte-level search for the separator coincides with character-level search).
Filesystem paths are modelled as lists of path segments (POSIX convention:
an absolute path is its segment list; `os.path.commonpath` on two absolute
paths is their longest common segment prefix and `os.path.normcase` is the
identity).  Socket reads are modelled by explicit chunk lists / read
schedules; timeouts and cancellation events are represented by the schedule
running out (the claims treated here do not depend on wall-clock time).
-/

/-! ## Wire-protocol constants, from config.py -/

/-- config.py line 15: HEADER_SEPARATOR = "|". -/
def HEADER_SEPARATOR : Char := '|'

/-- config.py line 12: BUFFER_SIZE_FOR_HEADER = 2048. -/
def BUFFER_SIZE_FOR_HEADER : Nat := 2048

/-- config.py line 28: FOLDER_PROTOCOL_PREFIX = "FDR_V1" (renamed here). -/
def folderProtocolTag : List Char := "FDR_V1".data

/-- config.py line 31: FOLDER_HEADER_TYPE_FOLDER = "FOLDER". -/
def headerTypeFolder : List Char := "FOLDER".data

/-- config.py line 32: FOLDER_HEADER_TYPE_FILE = "FILE". -/
def headerTypeFile : List Char := "FILE".data

/-- config.py line 33: FOLDER_HEADER_TYPE_END_TRANSFER = "END_TRANSFER". -/
def headerTypeEnd : List Char := "END_TRANSFER".data

/-- config.py line 36: FOLDER_HEADER_TYPE_TOTAL_INFO = "TOTAL_INFO". -/
def headerTypeTotalInfo : List Char := "TOTAL_INFO".data

/-- config.py line 41: HANDSHAKE_REQUEST_SIGNAL = b"IS_TRANSFER_COMPLETE?". -/
def HANDSHAKE_REQUEST_SIGNAL : List Char := "IS_TRANSFER_COMPLETE?".data

/-- config.py line 42: HANDSHAKE_COMPLETE_OK_SIGNAL = b"TRANSFER_COMPLETE_OK". -/
def HANDSHAKE_COMPLETE_OK_SIGNAL : List Char := "TRANSFER_COMPLETE_OK".data

/-- config.py line 43: HANDSHAKE_ERROR_SIGNAL = b"TRANSFER_ERROR". -/
def HANDSHAKE_ERROR_SIGNAL : List Char := "TRANSFER_ERROR".data

/-- config.py line 67: TEST_FILE_SIZE = 100 * 1024 * 1024. -/
def TEST_FILE_SIZE : Nat := 100 * 1024 * 1024

/-- The declared-size sanity ceiling `config.TEST_FILE_SIZE * 10000` used in
single_file_handler.py line 78 and folder_handler.py line 521. -/
def maxDeclaredFileSize : Nat := TEST_FILE_SIZE * 10000

/-- server.py line 144: prefix_check_bytes =
f"(FOLDER_PROTOCOL_PREFIX)(HEADER_SEPARATOR)".encode, i.e. the bytes of
"FDR_V1" followed by "|". -/
def folderSniffTag : List Char := "FDR_V1|".data

/-! ## Generic character-list helpers (models of Python str/bytes methods) -/

/-- Model of Python `str.split(sep)` for a one-character separator.
`"".split('/') == ['']`, hence the base case. -/
def splitOnChar (sep : Char) : List Char → List (List Char)
  | [] => [[]]
  | c :: cs =>
    match splitOnChar sep cs with
    | [] => if c = sep then [[], []] else [[c]]
    | h :: t => if c = sep then [] :: h :: t else (c :: h) :: t

/-- Model of Python `str.strip()` / `bytes.strip()` (whitespace on both ends). -/
def trimWs (l : List Char) : List Char :=
  ((l.dropWhile Char.isWhitespace).reverse.dropWhile Char.isWhitespace).reverse

/-- Model of Python `str.rstrip('/')`. -/
def stripTrailingSlashes (l : List Char) : List Char :=
  (l.reverse.dropWhile (fun c => c = '/')).reverse

/-- Numeric value of a digit string (used by `pyInt?`). -/
def digitsVal (l : List Char) : Nat :=
  l.foldl (fun a c => a * 10 + (c.toNat - '0'.toNat)) 0

/-- All characters are decimal digits and the string is nonempty. -/
def allDigits (l : List Char) : Bool :=
  !l.isEmpty && l.all Char.isDigit

/-- Model of Python `int(s)` on strings: optional surrounding whitespace, an
optional sign, then decimal digits; anything else raises ValueError (`none`
here).  Underscore digit grouping accepted by Python 3.6+ is not modelled. -/
def pyInt? (s : List Char) : Option Int :=
  match trimWs s with
  | '+' :: ds => if allDigits ds then some (digitsVal ds : Int) else none
  | '-' :: ds => if allDigits ds then some (-(digitsVal ds : Int)) else none
  | ds => if allDigits ds then some (digitsVal ds : Int) else none

/-! ## FrameReader, from transfer_core/helpers.py lines 20-135

`read_header_from_socket` accumulates bytes until the separator is found.
The socket is modelled by the list of bytes the peer will deliver plus a
read schedule: entry `k` of the schedule is how many bytes the next
successful `recv` yields (a `recv` never returns more than requested, hence
the `min`; an entry of `0` models a `socket.timeout`, which the source
handles by looping again).  An exhausted schedule models the overall
deadline elapsing. -/

/-- Locate the first separator in the buffer and split there: the code's
`header_buffer.find(header_sep_bytes)` followed by the two slices
(helpers.py lines 50-58 and 115-123). -/
def splitAtSep : List Char → Option (List Char × List Char)
  | [] => none
  | c :: cs =>
    if c = HEADER_SEPARATOR then some ([], cs)
    else
      match splitAtSep cs with
      | none => none
      | some (t, r) => some (c :: t, r)

/-- helpers.py lines 75-76: the requested chunk size is
`min(config.BUFFER_SIZE_FOR_HEADER, max_buffer)` for an empty buffer and
`min(4096, max_buffer - len(header_buffer))` otherwise.  In Python the
subtraction can go negative, making the guard `chunk_size_to_read <= 0`
fire; with `Nat` truncated subtraction that guard becomes `= 0`, which
fires under exactly the same condition `max_buffer <= len(header_buffer)`. -/
def chunkSizeToRead (bufLen maxBuf : Nat) : Nat :=
  if bufLen = 0 then min BUFFER_SIZE_FOR_HEADER maxBuf else min 4096 (maxBuf - bufLen)

/-- Failure modes of `read_header_from_socket`: overall timeout
(socket.timeout), peer closed before any data (ConnectionResetError), peer
closed mid-header or undecodable/oversized buffer (ValueError). -/
inductive ReadErr
  | timeoutErr
  | connClosed
  | malformed
  | bufExceeded
deriving DecidableEq

/-- The read loop of helpers.py lines 65-135.  Returns the decoded header,
the leftover bytes after the separator, and the bytes never read from the
socket.  UTF-8 decoding is the identity in the character-level model. -/
def readHeaderLoop (maxBuf : Nat) :
    List Nat → List Char → List Char → Except ReadErr ((List Char × List Char) × List Char)
  | [], _, _ => .error .timeoutErr
  | k :: ks, buf, stream =>
    if chunkSizeToRead buf.length maxBuf = 0 then .error .bufExceeded
    else if k = 0 then readHeaderLoop maxBuf ks buf stream
    else if stream = [] then .error (if buf = [] then .connClosed else .malformed)
    else
      match splitAtSep
          (buf ++ stream.take (min (min k (chunkSizeToRead buf.length maxBuf)) stream.length)) with
      | some (tok, rem) =>
        .ok ((tok, rem),
          stream.drop (min (min k (chunkSizeToRead buf.length maxBuf)) stream.length))
      | none =>
        if maxBuf < buf.length + min (min k (chunkSizeToRead buf.length maxBuf)) stream.length
        then .error .bufExceeded
        else
          readHeaderLoop maxBuf ks
            (buf ++ stream.take (min (min k (chunkSizeToRead buf.length maxBuf)) stream.length))
            (stream.drop (min (min k (chunkSizeToRead buf.length maxBuf)) stream.length))

/-- helpers.py lines 45-62 then 65-135: check the carried-over initial
buffer for a separator first, then enter the socket read loop. -/
def read_header_from_socket (maxBuf : Nat) (initialBuffer stream : List Char)
    (sched : List Nat) : Except ReadErr ((List Char × List Char) × List Char) :=
  match splitAtSep initialBuffer with
  | some (tok, rem) => .ok ((tok, rem), stream)
  | none => readHeaderLoop maxBuf sched initialBuffer stream

/-! ## PathSanitizer, from utils.py lines 53-214

Absolute paths are segment lists.  The model fixes sys.platform to POSIX:
the win32 reserved-name branch of sanitize_filename_part is dead code there,
`os.path.normcase` is the identity and `os.sep` is '/'.  The `os.makedirs`
side effects of sanitize_path are elided (they do not affect the returned
path or the raised errors on a writable filesystem). -/

/-- Characters left unchanged by `re.sub(r'[^\w\s\.-_]', '_', part)` in
utils.py line 67: word characters (modelled as ASCII alphanumerics plus
underscore), whitespace, and the character class range from '.' (0x2E) to
'_' (0x5F). -/
def keepChar (c : Char) : Bool :=
  c.isAlphanum || c = '_' || c.isWhitespace || ('.'.toNat ≤ c.toNat && c.toNat ≤ '_'.toNat)

/-- utils.py line 73: `re.sub(r'^\.+', '', s)`. -/
def dropLeadingDots (l : List Char) : List Char :=
  l.dropWhile (fun c => c = '.')

/-- utils.py line 74: `re.sub(r'[\s.]+$', '', s)`. -/
def dropTrailingWsDots (l : List Char) : List Char :=
  (l.reverse.dropWhile (fun c => c.isWhitespace || c = '.')).reverse

/-- Error kinds raised by the sanitization routines (all are ValueError in
the source; the constructor records which raise site fired). -/
inductive SanErr
  | invalidSegment
  | emptyAfterClean
  | emptyParts
  | pathTraversal
  | resolvesToBase
deriving DecidableEq

/-- utils.py lines 53-89, sanitize_filename_part: empty parts pass through,
'.' and '..' raise, otherwise disallowed characters become '_', spaces
become '_', leading dots and trailing whitespace/dots are stripped, and a
part that became empty raises. -/
def sanitize_filename_part (part : List Char) : Except SanErr (List Char) :=
  if part = [] then .ok []
  else if part = ['.'] ∨ part = ['.', '.'] then .error .invalidSegment
  else
    let s1 := part.map (fun c => if keepChar c then c else '_')
    let s2 := s1.map (fun c => if c = ' ' then '_' else c)
    let s3 := dropTrailingWsDots (dropLeadingDots s2)
    if s3 = [] then .error .emptyAfterClean else .ok s3

/-- utils.py lines 136-155, the per-segment loop of sanitize_path: `multi`
records `len(parts_protocol) > 1`.  A trailing empty segment is kept (it
marks a directory) when there is more than one segment; '.' and '..'
segments raise; other empty segments (from double slashes) are skipped;
remaining segments go through sanitize_filename_part. -/
def cleanSegments (multi : Bool) : List (List Char) → Except SanErr (List (List Char))
  | [] => .ok []
  | [p] =>
    if p = [] then (if multi then .ok [[]] else .ok [])
    else
      match sanitize_filename_part p with
      | .error e => .error e
      | .ok q => .ok [q]
  | p :: q :: rest =>
    if p = [] then cleanSegments multi (q :: rest)
    else
      match sanitize_filename_part p with
      | .error e => .error e
      | .ok p2 =>
        match cleanSegments multi (q :: rest) with
        | .error e => .error e
        | .ok ps => .ok (p2 :: ps)

/-- Model of POSIX `os.path.normpath` on an absolute path given as a segment
list: empty and '.' segments vanish, '..' pops the previous segment (and is
dropped at the root). -/
def normSegsAbs (segs : List (List Char)) : List (List Char) :=
  segs.foldl
    (fun acc s =>
      if s = [] ∨ s = ['.'] then acc
      else if s = ['.', '.'] then acc.dropLast
      else acc ++ [s]) []

/-- Model of `os.path.commonpath` on two absolute paths given as segment
lists: the longest common segment prefix. -/
def commonpathSegs : List (List Char) → List (List Char) → List (List Char)
  | a :: as, b :: bs => if a = b then a :: commonpathSegs as bs else []
  | _, _ => []

/-- utils.py lines 92-214, sanitize_path: split the protocol-relative path
on '/', clean the segments, join them onto the absolute base directory,
normalize, and verify with a common-path check that the normalized result is
still inside the base directory; additionally reject a non-trivial relative
path that resolves back to the base directory itself. -/
def sanitize_path (baseAbs : List (List Char)) (relative : List Char) :
    Except SanErr (List (List Char)) :=
  match cleanSegments (decide (1 < (splitOnChar '/' relative).length)) (splitOnChar '/' relative) with
  | .error e => .error e
  | .ok cleaned =>
    if cleaned = [] ∧ ¬(trimWs relative = [] ∨ trimWs relative = ['.'] ∨ trimWs relative = ['/'])
    then .error .emptyParts
    else if commonpathSegs (normSegsAbs baseAbs) (normSegsAbs (baseAbs ++ cleaned))
            ≠ normSegsAbs baseAbs
    then .error .pathTraversal
    else if ¬(trimWs relative = [] ∨ trimWs relative = ['.'] ∨ trimWs relative = ['/'])
            ∧ normSegsAbs (baseAbs ++ cleaned) = normSegsAbs baseAbs
    then .error .resolvesToBase
    else .ok (normSegsAbs (baseAbs ++ cleaned))

/-! ## Count/size verification and handshake response

From folder_handler.py lines 383-403 and handshake.py lines 176-187. -/

/-- folder_handler.py lines 385-400: verification_passed is False when
total_expected_items / total_expected_size is None or negative, or when the
received count/total differ from the expected ones; True otherwise.  The
Python code phrases this as one `if`/`else` over a short-circuited
disjunction; the `match` below separates the `is None` tests (which Python
short-circuits before the `< 0` comparisons). -/
def verificationPassed (expItems expSize : Option Int) (itemsCount bytesTotal : Int) : Bool :=
  match expItems, expSize with
  | some ei, some es =>
    if ei < 0 ∨ es < 0 ∨ itemsCount ≠ ei ∨ bytesTotal ≠ es then false else true
  | _, _ => false

/-- handshake.py lines 180-187 (perform_folder_handshake_server): send
HANDSHAKE_COMPLETE_OK_SIGNAL when verification_result is True, else
HANDSHAKE_ERROR_SIGNAL. -/
def serverHandshakeResponse (verificationResult : Bool) : List Char :=
  if verificationResult then HANDSHAKE_COMPLETE_OK_SIGNAL else HANDSHAKE_ERROR_SIGNAL

/-- The spec's wording of the verification condition (spec.md section 4.6,
AwaitingHandshakeRequest): expected count is known (a non-negative value was
recorded), expected size is known, and the running counters equal them.
This definition follows the specification text; it is compared against the
source-derived `verificationPassed` in the claim C1 theorem. -/
def verificationSpecClaim (expItems expSize : Option Int) (itemsCount bytesTotal : Int) : Prop :=
  (∃ n, expItems = some n ∧ 0 ≤ n) ∧ (∃ m, expSize = some m ∧ 0 ≤ m) ∧
    expItems = some itemsCount ∧ expSize = some bytesTotal

/-! ## Folder receiver state machine, from transfer_core/folder_handler.py

`handle_client_folder_transfer` is a loop over an explicit state variable.
The model below is that loop at the granularity of one state-machine action
per step.  The connection is modelled by `input`: the carry-over buffer
concatenated with every byte the peer will deliver (claim C3 establishes
that `read_header_from_socket` behaves like `splitAtSep` on this combined
stream, with no byte dropped or duplicated, so header reads are modelled by
`splitAtSep`).  Reaching the end of `input` mid-item models the peer closing
the connection.  Filesystem effects are elided: the model starts from an
empty receive directory, so the collision-rename loop and `os.path.isdir`
checks of the source never fire.  `completedSizes` is a ghost field (not in
the source) recording the declared size of every FILE item whose payload was
fully admitted; `responseSent` and `sawRequestSignal` are ghost observations
of the handshake send and of the request signal being consumed. -/

/-- Join path segments with '/', the inverse of splitting. -/
def joinSegs : List (List Char) → List Char
  | [] => []
  | [s] => s
  | s :: rest => s ++ '/' :: joinSegs rest

/-- Segment resolution inside POSIX `os.path.normpath`: empty and '.'
segments vanish; '..' pops the previous segment, except that in a relative
path leading '..' segments are kept and in an absolute path they disappear
at the root. -/
def normRelSegs (isAbs : Bool) (segs : List (List Char)) : List (List Char) :=
  segs.foldl
    (fun acc s =>
      if s = [] ∨ s = ['.'] then acc
      else if s = ['.', '.'] then
        if isAbs then acc.dropLast
        else
          match acc.getLast? with
          | some l => if l = ['.', '.'] then acc ++ [s] else acc.dropLast
          | none => acc ++ [s]
      else acc ++ [s]) []

/-- `os.path.normpath(p).replace((backslash), '/')` as used throughout
folder_handler.py (lines 181 and 428): POSIX normpath on the '/'-separated
string, then each backslash replaced by '/'.  The POSIX '//' root special
case is not modelled (no claim input exercises it). -/
def normpathStr (p : List Char) : List Char :=
  let isAbs := decide (p.head? = some '/')
  let core := joinSegs (normRelSegs isAbs (splitOnChar '/' p))
  let out := if isAbs then '/' :: core else if core = [] then ['.'] else core
  out.map (fun c => if c = '\\' then '/' else c)

/-- Phases of the receiver state machine, folder_handler.py lines 60-67.
`failed` stands for any raised exception (the handler then closes the
connection without a handshake). -/
inductive FolderPhase
  | waitRoot
  | waitTotalInfo
  | itemHeader
  | fileData
  | handshakeReq
  | complete
  | failed
deriving DecidableEq

/-- Receiver session state, folder_handler.py lines 36-72. -/
structure FolderState where
  input : List Char
  phase : FolderPhase
  itemsReceivedCount : Nat
  receivedBytesTotal : Nat
  totalExpectedItems : Option Int
  totalExpectedSize : Option Int
  currentFileExpected : Nat
  currentFileReceived : Nat
  fileOpen : Bool
  transferSuccess : Bool
  sessionRoot : List Char
  saveDir : List (List Char)
  recvBuf : Nat
  completedSizes : List Nat
  responseSent : Option (List Char)
  sawRequestSignal : Bool
deriving DecidableEq

/-- folder_handler.py line 36: save_dir_base = "received_folders", taken as
absolute (`os.path.abspath` is modelled as the identity on this fixed
directory). -/
def receivedFoldersBase : List (List Char) := ["received_folders".data]

/-- Any raised exception: the handler aborts the connection. -/
def failState (s : FolderState) : FolderState :=
  { s with phase := .failed, fileOpen := false }

/-- folder_handler.py lines 181-195: extract the first path component that
is nonempty and not '.' or '..' from the normalized client root path; fall
back to a generated name otherwise (the timestamped fallback names of the
source are modelled by fixed strings). -/
def extractRootName (pathTok : List Char) : List Char :=
  match (splitOnChar '/' (normpathStr pathTok)).find?
      (fun p => decide (p ≠ [] ∧ p ≠ ['.'] ∧ p ≠ ['.', '.'])) with
  | some p => p
  | none => "received_folder_fb".data

/-- folder_handler.py lines 197-206: sanitize the extracted root name,
falling back to generated names when sanitization empties it or raises. -/
def sanitizedRootName (pathTok : List Char) : List Char :=
  match sanitize_filename_part (extractRootName pathTok) with
  | .ok n => if n = [] then "received_folder_fb_empty".data else n
  | .error _ => "received_folder_fb_err".data

/-- folder_handler.py lines 134-239, state WAITING_FOR_ROOT_FOLDER_HEADER:
read prefix, type and path tokens; the prefix must be the protocol tag and
the type must be FOLDER; derive and sanitize the session root name, build
the session directory with sanitize_path, count the root item, and move to
waiting for TOTAL_INFO. -/
def processRoot (s : FolderState) : FolderState :=
  match splitAtSep s.input with
  | none => failState s
  | some (tok1, r1) =>
    if trimWs tok1 = HANDSHAKE_REQUEST_SIGNAL then
      failState { s with input := HANDSHAKE_REQUEST_SIGNAL ++ r1 }
    else if tok1 ≠ folderProtocolTag then failState { s with input := r1 }
    else
      match splitAtSep r1 with
      | none => failState { s with input := r1 }
      | some (typeTok, r2) =>
        match splitAtSep r2 with
        | none => failState { s with input := r2 }
        | some (pathTok, r3) =>
          if typeTok ≠ headerTypeFolder then failState { s with input := r3 }
          else
            match sanitize_path receivedFoldersBase (sanitizedRootName pathTok ++ ['/']) with
            | .error _ => failState { s with input := r3 }
            | .ok dir =>
              { s with input := r3, phase := .waitTotalInfo,
                       sessionRoot := sanitizedRootName pathTok, saveDir := dir,
                       itemsReceivedCount := s.itemsReceivedCount + 1 }

/-- folder_handler.py lines 287-303: parse the TOTAL_INFO data segment
"count,size"; both halves must be integers and non-negative. -/
def parseCountSize (dataTok : List Char) : Option (Int × Int) :=
  match splitOnChar ',' dataTok with
  | [a, b] =>
    match pyInt? a, pyInt? b with
    | some ca, some sb => if ca < 0 ∨ sb < 0 then none else some (ca, sb)
    | _, _ => none
  | _ => none

/-- folder_handler.py lines 242-334, state WAITING_FOR_TOTAL_INFO_HEADER:
a handshake-request token jumps to the handshake state (the signal bytes are
prepended back to the buffer); a TOTAL_INFO header records the expected
count/size; a FOLDER/FILE/END_TRANSFER header is pushed back onto the buffer
byte-for-byte, the expected count/size are recorded as -1 ("missing"), and
the machine re-processes the header in the item-header state. -/
def processTotalInfo (s : FolderState) : FolderState :=
  match splitAtSep s.input with
  | none => failState s
  | some (tok1, r1) =>
    if trimWs tok1 = HANDSHAKE_REQUEST_SIGNAL then
      { s with input := HANDSHAKE_REQUEST_SIGNAL ++ r1, phase := .handshakeReq,
               sawRequestSignal := true }
    else if tok1 ≠ folderProtocolTag then failState { s with input := r1 }
    else
      match splitAtSep r1 with
      | none => failState { s with input := r1 }
      | some (typeTok, r2) =>
        if typeTok = headerTypeTotalInfo then
          match splitAtSep r2 with
          | none => failState { s with input := r2 }
          | some (dataTok, r3) =>
            match parseCountSize dataTok with
            | none => failState { s with input := r3 }
            | some (c, sz) =>
              { s with input := r3, phase := .itemHeader,
                       totalExpectedItems := some c, totalExpectedSize := some sz }
        else if typeTok = headerTypeFolder ∨ typeTok = headerTypeFile
                ∨ typeTok = headerTypeEnd then
          { s with input := folderProtocolTag ++ HEADER_SEPARATOR ::
                     (typeTok ++ HEADER_SEPARATOR :: r2),
                   phase := .itemHeader,
                   totalExpectedItems := some (-1), totalExpectedSize := some (-1) }
        else failState { s with input := r2 }

/-- folder_handler.py lines 426-452: the received item path is normalized
and must extend `session_root/` (yielding the relative remainder) or equal
the bare session root (yielding the empty remainder); anything else is a
protocol error. -/
def relToSessionRoot (sessionRoot pathTok : List Char) : Option (List Char) :=
  let np := normpathStr pathTok
  let rootClean := stripTrailingSlashes (normpathStr sessionRoot)
  if (rootClean ++ ['/']).isPrefixOf np then some (np.drop (rootClean ++ ['/']).length)
  else if np = rootClean then some []
  else none

/-- folder_handler.py lines 455-497, FOLDER item: append '/' to a nonempty
relative part, sanitize against the session directory, reject a non-root
path that resolves to the session directory, create the directory
(idempotent) and count the item. -/
def processFolderItem (s : FolderState) (pathTok r : List Char) : FolderState :=
  match relToSessionRoot s.sessionRoot pathTok with
  | none => failState { s with input := r }
  | some rel =>
    match sanitize_path s.saveDir
        (if rel ≠ [] ∧ ¬ rel.getLast? = some '/' then rel ++ ['/'] else rel) with
    | .error _ => failState { s with input := r }
    | .ok dir =>
      if dir = normSegsAbs s.saveDir
          ∧ ¬ trimWs pathTok = trimWs (s.sessionRoot ++ ['/'])
      then failState { s with input := r }
      else { s with input := r, itemsReceivedCount := s.itemsReceivedCount + 1 }

/-- folder_handler.py lines 500-618, FILE item: strip a trailing slash from
the relative part (which must remain nonempty), read and validate the size
frame (non-negative, below the sanity ceiling), sanitize the destination
path (which must not resolve to the session directory); a declared size of 0
creates the empty file, counts the item and stays in the item-header state,
a positive size opens the file, counts the item and moves to the data
state. -/
def processFileItem (s : FolderState) (pathTok r : List Char) : FolderState :=
  match relToSessionRoot s.sessionRoot pathTok with
  | none => failState { s with input := r }
  | some rel0 =>
    if stripTrailingSlashes rel0 = [] then failState { s with input := r }
    else
      match splitAtSep r with
      | none => failState { s with input := r }
      | some (sizeTok, r2) =>
        match pyInt? sizeTok with
        | none => failState { s with input := r2 }
        | some n =>
          if n < 0 ∨ (maxDeclaredFileSize : Int) < n then failState { s with input := r2 }
          else
            match sanitize_path s.saveDir (stripTrailingSlashes rel0) with
            | .error _ => failState { s with input := r2 }
            | .ok p =>
              if p = normSegsAbs s.saveDir then failState { s with input := r2 }
              else if n = 0 then
                { s with input := r2,
                         itemsReceivedCount := s.itemsReceivedCount + 1,
                         completedSizes := s.completedSizes ++ [0],
                         currentFileExpected := 0, currentFileReceived := 0,
                         fileOpen := false }
              else
                { s with input := r2, phase := .fileData,
                         itemsReceivedCount := s.itemsReceivedCount + 1,
                         currentFileExpected := n.toNat, currentFileReceived := 0,
                         fileOpen := true }

/-- folder_handler.py lines 340-624, state WAITING_FOR_ITEM_HEADER: a
handshake-request token moves to the handshake state; otherwise the prefix
must be the protocol tag; END_TRANSFER closes the current file, runs the
count/size verification and moves to the handshake state; FOLDER and FILE
read the path token and are handled by their item processors. -/
def processItemHeader (s : FolderState) : FolderState :=
  match splitAtSep s.input with
  | none => failState s
  | some (tok1, r1) =>
    if trimWs tok1 = HANDSHAKE_REQUEST_SIGNAL then
      { s with input := r1, phase := .handshakeReq, sawRequestSignal := true }
    else if tok1 ≠ folderProtocolTag then failState { s with input := r1 }
    else
      match splitAtSep r1 with
      | none => failState { s with input := r1 }
      | some (typeTok, r2) =>
        if typeTok = headerTypeEnd then
          { s with input := r2, phase := .handshakeReq, fileOpen := false,
                   transferSuccess :=
                     verificationPassed s.totalExpectedItems s.totalExpectedSize
                       (s.itemsReceivedCount : Int) (s.receivedBytesTotal : Int) }
        else if typeTok = headerTypeFolder ∨ typeTok = headerTypeFile then
          match splitAtSep r2 with
          | none => failState { s with input := r2 }
          | some (pathTok, r3) =>
            if typeTok = headerTypeFolder then processFolderItem s pathTok r3
            else processFileItem s pathTok r3
        else failState { s with input := r2 }

/-- folder_handler.py lines 631-742, state RECEIVING_FILE_DATA: when the
current file still needs bytes, admit up to the receiver's configured buffer
size per read (buffered bytes and socket bytes share `input` here; the
source drains the carry-over buffer first and then reads from the socket in
`receive_buffer_size` chunks); an exhausted stream is a connection reset;
when the count is reached the file is closed and the machine returns to the
item-header state. -/
def processFileData (s : FolderState) : FolderState :=
  if s.currentFileExpected ≤ s.currentFileReceived then
    { s with phase := .itemHeader, fileOpen := false,
             completedSizes := s.completedSizes ++ [s.currentFileExpected],
             currentFileExpected := 0, currentFileReceived := 0 }
  else if s.input = [] then failState s
  else
    { s with
      input := s.input.drop
        (min (min s.recvBuf (s.currentFileExpected - s.currentFileReceived)) s.input.length),
      currentFileReceived := s.currentFileReceived +
        min (min s.recvBuf (s.currentFileExpected - s.currentFileReceived)) s.input.length,
      receivedBytesTotal := s.receivedBytesTotal +
        min (min s.recvBuf (s.currentFileExpected - s.currentFileReceived)) s.input.length }

/-- folder_handler.py lines 753-767, state WAITING_FOR_HANDSHAKE_REQUEST:
the handler immediately calls perform_folder_handshake_server, which sends
the response derived from the verification result, and the machine
completes.  Nothing is read from the connection in this state. -/
def processHandshake (s : FolderState) : FolderState :=
  { s with responseSent := some (serverHandshakeResponse s.transferSuccess),
           phase := .complete }

/-- One iteration of the main `while` loop of
handle_client_folder_transfer, dispatching on the current state. -/
def folderStep (s : FolderState) : FolderState :=
  match s.phase with
  | .waitRoot => processRoot s
  | .waitTotalInfo => processTotalInfo s
  | .itemHeader => processItemHeader s
  | .fileData => processFileData s
  | .handshakeReq => processHandshake s
  | .complete => s
  | .failed => s

/-- Initial session state for a connection dispatched to the folder
handler: the sniffed bytes plus the rest of the peer's stream form `input`. -/
def initFolderState (recvBuf : Nat) (stream : List Char) : FolderState :=
  { input := stream, phase := .waitRoot, itemsReceivedCount := 0,
    receivedBytesTotal := 0, totalExpectedItems := none, totalExpectedSize := none,
    currentFileExpected := 0, currentFileReceived := 0, fileOpen := false,
    transferSuccess := false, sessionRoot := [], saveDir := [], recvBuf := recvBuf,
    completedSizes := [], responseSent := none, sawRequestSignal := false }

/-- Run the receiver loop for a bounded number of iterations (`complete` and
`failed` are absorbing). -/
def runFolder : Nat → FolderState → FolderState
  | 0, s => s
  | fuel + 1, s => runFolder fuel (folderStep s)

/-- A complete folder-sender byte stream carrying one empty root folder,
a TOTAL_INFO of one item and zero bytes, and END_TRANSFER — and no
HANDSHAKE_REQUEST signal anywhere. -/
def streamWithoutRequest : List Char :=
  "FDR_V1|FOLDER|r/|FDR_V1|TOTAL_INFO|1,0|FDR_V1|END_TRANSFER|".data

/-- The invariant tying the running byte total to the ghost record of
admitted file sizes (used for claim C6). -/
def FolderInv (s : FolderState) : Prop :=
  s.receivedBytesTotal = s.completedSizes.sum + s.currentFileReceived
  ∧ s.currentFileReceived ≤ s.currentFileExpected
  ∧ ((s.phase = .waitRoot ∨ s.phase = .waitTotalInfo ∨ s.phase = .itemHeader)
      → s.currentFileReceived = 0)

/-! ## Single-file receiver, from transfer_core/single_file_handler.py

The header tokens are delivered by `read_header_from_socket` (claim C3);
the model takes them as given and covers the parsing and the data-receive
loop.  The socket is modelled by the list of successive successful `recv`
results; an empty chunk is the peer closing the connection; an exhausted
chunk list ends the observed trace with the loop still polling. -/

/-- single_file_handler.py lines 93-100: the sender's buffer-size hint is
parsed with `int`; a non-positive value raises inside the `try` and any
ValueError falls back to the default 4096. -/
def parseBufferHint (tok : List Char) : Int :=
  match pyInt? tok with
  | some n => if n ≤ 0 then 4096 else n
  | none => 4096

/-- The parsed single-file header: filename, declared size, sender hint. -/
structure SFHeader where
  filename : List Char
  filesize : Nat
  bufferHint : Int
deriving DecidableEq

/-- single_file_handler.py lines 58-104: the filename token is taken as is,
the filesize token must parse as a non-negative integer below the sanity
ceiling (lines 73-84), and the buffer hint is parsed with fallback (lines
93-100) — a bad hint never fails the header. -/
def parseSingleFileHeader (fname fsStr hintStr : List Char) : Except Unit SFHeader :=
  match pyInt? fsStr with
  | none => .error ()
  | some n =>
    if n < 0 ∨ (maxDeclaredFileSize : Int) < n then .error ()
    else .ok ⟨fname, n.toNat, parseBufferHint hintStr⟩

/-- Result of the data-receive loop: bytes received, whether an empty recv
(peer closed) ended it, and the ghost list of sizes requested from the
socket. -/
structure SfLoopOut where
  received : Nat
  closedEarly : Bool
  requests : List Nat
deriving DecidableEq

/-- single_file_handler.py lines 237-297, the receive loop: while fewer
than `filesize` bytes have arrived, request
`min(receive_buffer_size, filesize - received_bytes)` bytes (the receiver's
own configured buffer, lines 234-254); a zero request exits the loop; an
empty chunk means the peer closed; otherwise count what arrived (a recv
never returns more than requested, hence the `take`). -/
def sfLoop (filesize recvBuf : Nat) : List (List Char) → Nat → SfLoopOut
  | [], received => ⟨received, false, []⟩
  | c :: cs, received =>
    if filesize ≤ received then ⟨received, false, []⟩
    else if min recvBuf (filesize - received) = 0 then ⟨received, false, []⟩
    else if c = [] then ⟨received, true, [min recvBuf (filesize - received)]⟩
    else
      let out := sfLoop filesize recvBuf cs (received + (c.take (min recvBuf (filesize - received))).length)
      ⟨out.received, out.closedEarly, min recvBuf (filesize - received) :: out.requests⟩

/-- Observable outcome of a single-file receive. -/
structure SFOutcome where
  receivedBytes : Nat
  transferSuccess : Bool
  fileCreated : Bool
  deleted : Bool
  closedEarly : Bool
  recvRequests : List Nat
deriving DecidableEq

/-- single_file_handler.py lines 194-343: a declared size of 0 creates the
empty file and finalizes immediately without entering the data loop (lines
196-204); otherwise the carried-over bytes are written first, capped at the
declared size (lines 217-229), then the receive loop runs; the transfer is
successful when it was not interrupted and the byte count was reached
(lines 300-303); the cleanup of the inner `finally` deletes the file
exactly when the transfer failed, the size was positive and the count fell
short (lines 332-343). -/
def singleFileBody (filesize recvBuf : Nat) (carry : List Char)
    (chunks : List (List Char)) : SFOutcome :=
  if filesize = 0 then ⟨0, true, true, false, false, []⟩
  else
    let out := sfLoop filesize recvBuf chunks (min carry.length filesize)
    let success := !out.closedEarly && decide (filesize ≤ out.received)
    ⟨out.received, success,
     true,
     !success && decide (0 < filesize) && decide (out.received < filesize),
     out.closedEarly, out.requests⟩

/-! ## Connection dispatcher, from transfer_core/server.py lines 125-240 -/

/-- Where an accepted connection is routed. -/
inductive Dispatch
  | closedNoHandler
  | folderHandler (carry : List Char)
  | fileHandler (carry : List Char)
deriving DecidableEq

/-- server.py line 135: the protocol sniff reads at most
BUFFER_SIZE_FOR_HEADER bytes; `none` models a recv that raised (timeout,
reset, or other error). -/
def sniffRead (avail : Option (List Char)) : Option (List Char) :=
  avail.map (fun b => b.take BUFFER_SIZE_FOR_HEADER)

/-- server.py lines 128-240: an exception during the sniff read, or an
empty read (ConnectionResetError, line 140), closes the connection without
starting a handler; otherwise the connection goes to the folder handler
exactly when the sniffed bytes start with the folder prefix frame (lines
144-152), and the sniffed bytes are passed to the chosen handler as its
initial carry-over buffer (lines 206-240). -/
def classifyConnection : Option (List Char) → Dispatch
  | none => .closedNoHandler
  | some b =>
    if b = [] then .closedNoHandler
    else if folderSniffTag.isPrefixOf b then .folderHandler b
    else .fileHandler b

deriving instance DecidableEq for Except

/-- C1: the handshake response is the OK bytes exactly when the spec-side
verification conjunction holds, and the ERROR bytes otherwise. -/
theorem verification_response_correct (e1 e2 : Option Int) (c t : Int) :
    (serverHandshakeResponse (verificationPassed e1 e2 c t) = HANDSHAKE_COMPLETE_OK_SIGNAL
        ↔ verificationSpecClaim e1 e2 c t)
    ∧ (serverHandshakeResponse (verificationPassed e1 e2 c t) = HANDSHAKE_ERROR_SIGNAL
        ↔ ¬ verificationSpecClaim e1 e2 c t) := by
  have hne : HANDSHAKE_COMPLETE_OK_SIGNAL ≠ HANDSHAKE_ERROR_SIGNAL := by decide
  have hne2 : HANDSHAKE_ERROR_SIGNAL ≠ HANDSHAKE_COMPLETE_OK_SIGNAL := by decide
  cases e1 with
  | none =>
    simp [verificationPassed, serverHandshakeResponse, verificationSpecClaim, hne, hne2]
  | some a =>
    cases e2 with
    | none =>
      simp [verificationPassed, serverHandshakeResponse, verificationSpecClaim, hne, hne2]
    | some b =>
      by_cases hcond : a < 0 ∨ b < 0 ∨ c ≠ a ∨ t ≠ b
      · have hns : ¬ verificationSpecClaim (some a) (some b) c t := by
          simp only [verificationSpecClaim, Option.some.injEq]
          rintro ⟨⟨n, hn, hn0⟩, ⟨m, hm, hm0⟩, hc, ht⟩
          subst hn; subst hm
          rcases hcond with h | h | h | h <;> omega
        simp [verificationPassed, serverHandshakeResponse, hcond, hne, hne2, hns]
      · push_neg at hcond
        obtain ⟨h1, h2, h3, h4⟩ := hcond
        have hs : verificationSpecClaim (some a) (some b) c t :=
          ⟨⟨a, rfl, by omega⟩, ⟨b, rfl, by omega⟩, by rw [h3], by rw [h4]⟩
        have : ¬ (a < 0 ∨ b < 0 ∨ c ≠ a ∨ t ≠ b) := by
          push_neg; exact ⟨h1, h2, h3, h4⟩
        simp [verificationPassed, serverHandshakeResponse, this, hne, hs]

/-- Witness for C1 at a concrete input: expected 3 items and 5 bytes, with
matching counters, yields the OK response bytes. -/
theorem verification_response_correct_witness :
    serverHandshakeResponse (verificationPassed (some 3) (some 5) 3 5)
      = HANDSHAKE_COMPLETE_OK_SIGNAL :=
  (verification_response_correct (some 3) (some 5) 3 5).1.mpr
    ⟨⟨3, rfl, by decide⟩, ⟨5, rfl, by decide⟩, rfl, rfl⟩

/-- A '.' or '..' segment always makes the cleaning loop raise. -/
theorem cleanSegments_error_of_dot (multi : Bool) :
    ∀ parts : List (List Char), (∃ p ∈ parts, p = ['.'] ∨ p = ['.', '.']) →
      ∃ e, cleanSegments multi parts = .error e := by
  intro parts
  induction parts with
  | nil => rintro ⟨p, hp, _⟩; exact absurd hp (List.not_mem_nil p)
  | cons p rest ih =>
    rintro ⟨q, hq, hdot⟩
    have hq_err : q = ['.'] ∨ q = ['.', '.'] → sanitize_filename_part q = .error .invalidSegment := by
      rintro (h | h) <;> subst h <;> rfl
    rcases List.mem_cons.mp hq with hqp | hqrest
    · subst hqp
      have hqe : q ≠ [] := by rcases hdot with h | h <;> subst h <;> decide
      cases rest with
      | nil =>
        refine ⟨.invalidSegment, ?_⟩
        simp only [cleanSegments, if_neg hqe, hq_err hdot]
      | cons r rest2 =>
        refine ⟨.invalidSegment, ?_⟩
        simp only [cleanSegments, if_neg hqe, hq_err hdot]
    · obtain ⟨e, he⟩ : ∃ e, cleanSegments multi rest = .error e := ih ⟨q, hqrest, hdot⟩
      have hrest_ne : rest ≠ [] := by
        intro h; subst h; exact absurd hqrest (List.not_mem_nil q)
      obtain ⟨r, rest2, hr⟩ := List.exists_cons_of_ne_nil hrest_ne
      subst hr
      by_cases hp0 : p = []
      · exact ⟨e, by simp only [cleanSegments, if_pos hp0]; exact he⟩
      · cases hsf : sanitize_filename_part p with
        | error e2 => exact ⟨e2, by simp only [cleanSegments, if_neg hp0, hsf]⟩
        | ok p2 => exact ⟨e, by simp only [cleanSegments, if_neg hp0, hsf, he]⟩

/-- If the longest common segment prefix of `a` and `b` is `a` itself, then
`a` is a prefix of `b`. -/
theorem commonpathSegs_eq_self (a : List (List Char)) :
    ∀ b, commonpathSegs a b = a → a <+: b := by
  induction a with
  | nil => intro b _; exact List.nil_prefix
  | cons x xs ih =>
    intro b h
    cases b with
    | nil => simp [commonpathSegs] at h
    | cons y ys =>
      simp only [commonpathSegs] at h
      split at h
      · next hxy =>
        subst hxy
        have h2 : commonpathSegs xs ys = xs := by injection h
        obtain ⟨tail, htail⟩ := ih ys h2
        exact ⟨tail, by rw [List.cons_append, htail]⟩
      · exact absurd h (by simp)

/-- C2: `sanitize_path` fails on every relative path with a '.' or '..'
segment, and every accepted relative path yields a result that passed the
common-path containment check against the (normalized) base directory and is
therefore an extension of it; a containment failure is an error, never a
silent escape. -/
theorem sanitize_path_containment (baseAbs : List (List Char)) (relative : List Char) :
    ((∃ p ∈ splitOnChar '/' relative, p = ['.'] ∨ p = ['.', '.']) →
        ∃ e, sanitize_path baseAbs relative = .error e)
    ∧ (∀ result, sanitize_path baseAbs relative = .ok result →
        commonpathSegs (normSegsAbs baseAbs) result = normSegsAbs baseAbs
          ∧ normSegsAbs baseAbs <+: result) := by
  constructor
  · intro hdot
    obtain ⟨e, he⟩ := cleanSegments_error_of_dot
      (decide (1 < (splitOnChar '/' relative).length)) (splitOnChar '/' relative) hdot
    exact ⟨e, by simp only [sanitize_path, he]⟩
  · intro result h
    unfold sanitize_path at h
    cases hcs : cleanSegments (decide (1 < (splitOnChar '/' relative).length))
        (splitOnChar '/' relative) with
    | error e => rw [hcs] at h; exact absurd h (by simp)
    | ok cleaned =>
      rw [hcs] at h
      simp only at h
      by_cases hz : cleaned = []
          ∧ ¬(trimWs relative = [] ∨ trimWs relative = ['.'] ∨ trimWs relative = ['/'])
      · rw [if_pos hz] at h; exact absurd h (by simp)
      · rw [if_neg hz] at h
        by_cases hcp : commonpathSegs (normSegsAbs baseAbs) (normSegsAbs (baseAbs ++ cleaned))
            ≠ normSegsAbs baseAbs
        · rw [if_pos hcp] at h; exact absurd h (by simp)
        · rw [if_neg hcp] at h
          rw [not_not] at hcp
          by_cases hrb : ¬(trimWs relative = [] ∨ trimWs relative = ['.'] ∨ trimWs relative = ['/'])
              ∧ normSegsAbs (baseAbs ++ cleaned) = normSegsAbs baseAbs
          · rw [if_pos hrb] at h; exact absurd h (by simp)
          · rw [if_neg hrb] at h
            injection h with hh
            subst hh
            exact ⟨hcp, commonpathSegs_eq_self _ _ hcp⟩

/-- Witness for C2 at concrete inputs: `../x` is rejected, and the accepted
path `x` lands inside the base directory. -/
theorem sanitize_path_containment_witness :
    (∃ e, sanitize_path ["base".data] "../x".data = .error e)
    ∧ (commonpathSegs (normSegsAbs ["base".data]) ["base".data, "x".data]
          = normSegsAbs ["base".data]
        ∧ normSegsAbs ["base".data] <+: ["base".data, "x".data]) :=
  ⟨(sanitize_path_containment ["base".data] "../x".data).1
      ⟨['.', '.'], by decide, Or.inr rfl⟩,
   (sanitize_path_containment ["base".data] "x".data).2 ["base".data, "x".data] (by rfl)⟩

/-- Splitting at the separator recovers a separator-free token exactly. -/
theorem splitAtSep_concat (a b : List Char) (h : HEADER_SEPARATOR ∉ a) :
    splitAtSep (a ++ HEADER_SEPARATOR :: b) = some (a, b) := by
  induction a with
  | nil => simp [splitAtSep]
  | cons c cs ih =>
    have hc : ¬ c = HEADER_SEPARATOR := by
      intro e; subst e; exact h (List.mem_cons_self _ _)
    have hcs2 : HEADER_SEPARATOR ∉ cs := fun m => h (List.mem_cons_of_mem _ m)
    simp [splitAtSep, hc, ih hcs2]

/-- A separator-free buffer has no frame to split off. -/
theorem splitAtSep_eq_none (l : List Char) (h : HEADER_SEPARATOR ∉ l) :
    splitAtSep l = none := by
  induction l with
  | nil => rfl
  | cons c cs ih =>
    have hc : ¬ c = HEADER_SEPARATOR := by
      intro e; subst e; exact h (List.mem_cons_self _ _)
    have hcs2 : HEADER_SEPARATOR ∉ cs := fun m => h (List.mem_cons_of_mem _ m)
    simp [splitAtSep, hc, ih hcs2]

/-- A separator-free prefix of `token ++ sep :: rest` cannot reach past the
token. -/
theorem sepfree_length_le :
    ∀ (buf token stream rest : List Char), HEADER_SEPARATOR ∉ buf →
      buf ++ stream = token ++ HEADER_SEPARATOR :: rest → buf.length ≤ token.length := by
  intro buf
  induction buf with
  | nil => intro token stream rest _ _; simp
  | cons c cs ih =>
    intro token stream rest hnb heq
    cases token with
    | nil =>
      simp only [List.nil_append, List.cons_append, List.cons.injEq] at heq
      obtain ⟨hc, -⟩ := heq
      subst hc
      exact absurd (List.mem_cons_self _ _) hnb
    | cons t ts =>
      simp only [List.cons_append] at heq
      injection heq with h1 h2
      have hcs2 : HEADER_SEPARATOR ∉ cs := fun m => hnb (List.mem_cons_of_mem _ m)
      have := ih ts stream rest hcs2 h2
      simp only [List.length_cons]
      omega

/-- Taking at least `token.length + 1` elements of `token ++ sep :: rest`
reaches past the separator. -/
theorem take_append_sep (token rest : List Char) (m : Nat) (h : token.length + 1 ≤ m) :
    (token ++ HEADER_SEPARATOR :: rest).take m
      = token ++ HEADER_SEPARATOR :: rest.take (m - (token.length + 1)) := by
  conv_lhs => rw [show m = token.length + (1 + (m - (token.length + 1))) by omega]
  rw [List.take_add, List.take_left, List.drop_left]
  congr 1
  rw [Nat.add_comm 1 _]
  exact List.take_succ_cons

/-- Dropping at least `token.length + 1` elements of `token ++ sep :: rest`
lands inside `rest`. -/
theorem drop_append_sep (token rest : List Char) (m : Nat) (h : token.length + 1 ≤ m) :
    (token ++ HEADER_SEPARATOR :: rest).drop m = rest.drop (m - (token.length + 1)) := by
  conv_lhs => rw [show m = token.length + (1 + (m - (token.length + 1))) by omega]
  rw [← List.drop_drop, List.drop_left]
  rw [Nat.add_comm 1 _]
  exact List.drop_succ_cons

/-- Taking at most `token.length` elements of `token ++ sep :: rest` stays
inside the token. -/
theorem take_append_short (token rest : List Char) (m : Nat) (h : m ≤ token.length) :
    (token ++ HEADER_SEPARATOR :: rest).take m = token.take m := by
  rw [List.take_append_eq_append_take, Nat.sub_eq_zero_of_le h, List.take_zero,
     List.append_nil]

/-- Main loop invariant for C3: as long as the schedule provides enough
positive reads, the loop finds the token and the returned leftover together
with the undelivered stream bytes reassembles `rest` exactly. -/
theorem readHeaderLoop_ok (token rest : List Char) (maxBuf : Nat)
    (hsep : HEADER_SEPARATOR ∉ token) (hmax : token.length < maxBuf) :
    ∀ (sched : List Nat) (buf stream : List Char),
      (∀ k ∈ sched, 0 < k) →
      HEADER_SEPARATOR ∉ buf →
      buf ++ stream = token ++ HEADER_SEPARATOR :: rest →
      token.length + 1 ≤ buf.length + sched.length →
      ∃ l m, readHeaderLoop maxBuf sched buf stream = .ok ((token, l), m) ∧ l ++ m = rest := by
  intro sched
  induction sched with
  | nil =>
    intro buf stream hpos hnb heq hbud
    exfalso
    have hle := sepfree_length_le buf token stream rest hnb heq
    simp only [List.length_nil] at hbud
    omega
  | cons k ks ih =>
    intro buf stream hpos hnb heq hbud
    have hk : 0 < k := hpos k (List.mem_cons_self k ks)
    have hposks : ∀ j ∈ ks, 0 < j := fun j hj => hpos j (List.mem_cons_of_mem _ hj)
    have hble : buf.length ≤ token.length := sepfree_length_le buf token stream rest hnb heq
    have hlen : buf.length + stream.length = token.length + 1 + rest.length := by
      have h0 := congrArg List.length heq
      simp only [List.length_append, List.length_cons] at h0
      omega
    have hstream_pos : 0 < stream.length := by omega
    have hstream_ne : stream ≠ [] := by
      intro h0; rw [h0] at hstream_pos; simp at hstream_pos
    have hcspos : 0 < chunkSizeToRead buf.length maxBuf := by
      unfold chunkSizeToRead
      by_cases hb0 : buf.length = 0
      · rw [if_pos hb0]
        exact lt_min (by norm_num [BUFFER_SIZE_FOR_HEADER]) (by omega)
      · rw [if_neg hb0]
        exact lt_min (by norm_num) (by omega)
    have hbuf_take : (token ++ HEADER_SEPARATOR :: rest).take buf.length = buf := by
      rw [← heq]; exact List.take_left buf stream
    have hstr_drop : (token ++ HEADER_SEPARATOR :: rest).drop buf.length = stream := by
      rw [← heq]; exact List.drop_left buf stream
    simp only [readHeaderLoop]
    rw [if_neg (Nat.pos_iff_ne_zero.mp hcspos), if_neg (Nat.pos_iff_ne_zero.mp hk),
       if_neg hstream_ne]
    generalize hA : min (min k (chunkSizeToRead buf.length maxBuf)) stream.length = a
    have hapos : 0 < a := by
      rw [← hA]; exact lt_min (lt_min hk hcspos) hstream_pos
    have hale : a ≤ stream.length := by rw [← hA]; exact min_le_right _ _
    have htake_len : (stream.take a).length = a := by
      rw [List.length_take]; omega
    have hbuf2 : buf ++ stream.take a
        = (token ++ HEADER_SEPARATOR :: rest).take (buf.length + a) := by
      rw [List.take_add, hbuf_take, hstr_drop]
    by_cases hcase : token.length + 1 ≤ buf.length + a
    · refine ⟨rest.take (buf.length + a - (token.length + 1)), stream.drop a, ?_, ?_⟩
      · rw [hbuf2, take_append_sep token rest _ hcase, splitAtSep_concat _ _ hsep]
      · have hdrop2 : stream.drop a
            = rest.drop (buf.length + a - (token.length + 1)) := by
          have h1 : stream.drop a
              = (token ++ HEADER_SEPARATOR :: rest).drop (buf.length + a) := by
            rw [← hstr_drop, List.drop_drop]
          rw [h1, drop_append_sep token rest _ hcase]
        rw [hdrop2, List.take_append_drop]
    · have hsmall : buf.length + a ≤ token.length := by omega
      have hshape2 := take_append_short token rest _ hsmall
      have hnb2 : HEADER_SEPARATOR ∉ buf ++ stream.take a := by
        rw [hbuf2, hshape2]
        intro hmem
        exact hsep ((List.take_sublist _ _).subset hmem)
      have hnone : splitAtSep (buf ++ stream.take a) = none := splitAtSep_eq_none _ hnb2
      simp only [hnone]
      have hlen2 : (buf ++ stream.take a).length = buf.length + a := by
        rw [List.length_append, htake_len]
      rw [if_neg (by omega : ¬ maxBuf < buf.length + a)]
      apply ih (buf ++ stream.take a) (stream.drop a) hposks hnb2
      · rw [List.append_assoc, List.take_append_drop]; exact heq
      · rw [hlen2]; simp only [List.length_cons] at hbud; omega

/-- C3: for a stream of the form `token ++ '|' ++ rest` with a
separator-free token, `read_header_from_socket` returns exactly the token,
and the returned leftover bytes followed by the bytes never read from the
socket are exactly `rest` — no byte is consumed twice or dropped — for every
split of the stream between the initial buffer and scheduled socket reads;
when the whole stream is already in the initial buffer the leftover is
`rest` itself. -/
theorem read_frame_no_loss (token rest : List Char) (n maxBuf : Nat) (sched : List Nat)
    (hsep : HEADER_SEPARATOR ∉ token) (hmax : token.length < maxBuf)
    (hpos : ∀ k ∈ sched, 0 < k)
    (hbud : token.length + 1 ≤ n + sched.length) :
    (∃ l m, read_header_from_socket maxBuf ((token ++ HEADER_SEPARATOR :: rest).take n)
        ((token ++ HEADER_SEPARATOR :: rest).drop n) sched = .ok ((token, l), m)
        ∧ l ++ m = rest)
    ∧ read_header_from_socket maxBuf (token ++ HEADER_SEPARATOR :: rest) [] sched
        = .ok ((token, rest), []) := by
  constructor
  · by_cases hc : token.length + 1 ≤ n
    · refine ⟨rest.take (n - (token.length + 1)),
        (token ++ HEADER_SEPARATOR :: rest).drop n, ?_, ?_⟩
      · unfold read_header_from_socket
        rw [take_append_sep token rest _ hc, splitAtSep_concat _ _ hsep]
      · rw [drop_append_sep token rest _ hc, List.take_append_drop]
    · have hn : n ≤ token.length := by omega
      have htk := take_append_short token rest _ hn
      have hnb : HEADER_SEPARATOR ∉ (token ++ HEADER_SEPARATOR :: rest).take n := by
        rw [htk]
        intro hmem
        exact hsep ((List.take_sublist _ _).subset hmem)
      have hnone := splitAtSep_eq_none _ hnb
      unfold read_header_from_socket
      rw [hnone]
      apply readHeaderLoop_ok token rest maxBuf hsep hmax sched _ _ hpos hnb
      · exact List.take_append_drop _ _
      · have hlt : (token ++ HEADER_SEPARATOR :: rest).take n
            = (token ++ HEADER_SEPARATOR :: rest).take n := rfl
        have : ((token ++ HEADER_SEPARATOR :: rest).take n).length = n := by
          rw [List.length_take, List.length_append, List.length_cons]
          omega
        omega
  · unfold read_header_from_socket
    rw [splitAtSep_concat _ _ hsep]

/-- Witness for C3: token "AB" with trailing bytes "CD", initial buffer
holding only the first byte and two scheduled reads. -/
theorem read_frame_no_loss_witness :
    (∃ l m, read_header_from_socket 8192
        (("AB".data ++ HEADER_SEPARATOR :: "CD".data).take 1)
        (("AB".data ++ HEADER_SEPARATOR :: "CD".data).drop 1) [1, 1]
        = .ok (("AB".data, l), m) ∧ l ++ m = "CD".data)
    ∧ read_header_from_socket 8192 ("AB".data ++ HEADER_SEPARATOR :: "CD".data) [] [1, 1]
        = .ok (("AB".data, "CD".data), []) :=
  read_frame_no_loss "AB".data "CD".data 1 8192 [1, 1] (by decide) (by decide)
    (by decide) (by decide)

/-- C4 counterexample: on a complete folder stream that contains no
HANDSHAKE_REQUEST bytes at all, the receiver nevertheless sends its
handshake response (the OK bytes), refuting the claim that the response is
sent only upon receiving the request. -/
theorem response_sent_without_request :
    (runFolder 6 (initFolderState 4096 streamWithoutRequest)).responseSent
        = some HANDSHAKE_COMPLETE_OK_SIGNAL
    ∧ (runFolder 6 (initFolderState 4096 streamWithoutRequest)).sawRequestSignal = false
    ∧ ¬ HANDSHAKE_REQUEST_SIGNAL <:+: streamWithoutRequest := by
  refine ⟨rfl, rfl, ?_⟩
  decide

/-- C4 amended: once the receiver reaches the handshake state (in
particular straight after processing END_TRANSFER), it sends the
verification response immediately — consuming no input and in particular not
waiting for the HANDSHAKE_REQUEST signal — and completes. -/
theorem handshake_send_immediate (s : FolderState) (h : s.phase = .handshakeReq) :
    (folderStep s).responseSent = some (serverHandshakeResponse s.transferSuccess)
    ∧ (folderStep s).input = s.input
    ∧ (folderStep s).sawRequestSignal = s.sawRequestSignal
    ∧ (folderStep s).phase = .complete := by
  obtain ⟨inp, ph, items, total, ei, es, cfe, cfr, fo, ts, sr, sd, rb, cs, rs, saw⟩ := s
  simp only at h ⊢
  subst h
  exact ⟨rfl, rfl, rfl, rfl⟩

/-- Witness for C4's amended theorem at a concrete handshake-state
session. -/
theorem handshake_send_immediate_witness :
    (folderStep { initFolderState 4096 [] with phase := .handshakeReq }).responseSent
        = some (serverHandshakeResponse
            ({ initFolderState 4096 [] with phase := .handshakeReq } : FolderState).transferSuccess) :=
  (handshake_send_immediate { initFolderState 4096 [] with phase := .handshakeReq } rfl).1

/-- C5: a FOLDER/FILE/END_TRANSFER header arriving instead of TOTAL_INFO
records the expected count and size as unknown (-1), pushes the very same
header bytes back so they are re-processed in the item-header state (the
connection does not fail); the count/size verification then necessarily
fails at END_TRANSFER, and the handshake state answers with the
HANDSHAKE_ERROR bytes. -/
theorem total_info_skip_fallback :
    (∀ (s : FolderState) (t r : List Char),
      s.phase = .waitTotalInfo →
      (t = headerTypeFolder ∨ t = headerTypeFile ∨ t = headerTypeEnd) →
      s.input = folderProtocolTag ++ HEADER_SEPARATOR :: (t ++ HEADER_SEPARATOR :: r) →
      (folderStep s).phase = .itemHeader ∧ (folderStep s).input = s.input
        ∧ (folderStep s).totalExpectedItems = some (-1)
        ∧ (folderStep s).totalExpectedSize = some (-1)
        ∧ (folderStep s).itemsReceivedCount = s.itemsReceivedCount
        ∧ (folderStep s).receivedBytesTotal = s.receivedBytesTotal)
    ∧ (∀ (s : FolderState) (r : List Char),
      s.phase = .itemHeader →
      s.totalExpectedItems = some (-1) →
      s.input = folderProtocolTag ++ HEADER_SEPARATOR :: (headerTypeEnd ++ HEADER_SEPARATOR :: r) →
      (folderStep s).transferSuccess = false ∧ (folderStep s).phase = .handshakeReq)
    ∧ (∀ s : FolderState, s.phase = .handshakeReq → s.transferSuccess = false →
      (folderStep s).responseSent = some HANDSHAKE_ERROR_SIGNAL) := by
  refine ⟨?_, ?_, ?_⟩
  · intro s t r hphase ht hinput
    obtain ⟨inp, ph, items, total, ei, es, cfe, cfr, fo, ts, sr, sd, rb, cs, rs, saw⟩ := s
    simp only at hphase hinput ⊢
    subst hphase
    rcases ht with rfl | rfl | rfl <;> subst hinput <;>
      exact ⟨rfl, rfl, rfl, rfl, rfl, rfl⟩
  · intro s r hphase hexp hinput
    obtain ⟨inp, ph, items, total, ei, es, cfe, cfr, fo, ts, sr, sd, rb, cs, rs, saw⟩ := s
    simp only at hphase hexp hinput ⊢
    subst hphase; subst hexp; subst hinput
    cases es with
    | none => exact ⟨rfl, rfl⟩
    | some x => exact ⟨rfl, rfl⟩
  · intro s hphase hsucc
    obtain ⟨inp, ph, items, total, ei, es, cfe, cfr, fo, ts, sr, sd, rb, cs, rs, saw⟩ := s
    simp only at hphase hsucc ⊢
    subst hphase; subst hsucc
    rfl

/-- Witness for C5 at a concrete session in the TOTAL_INFO state that
receives an END_TRANSFER header instead. -/
theorem total_info_skip_fallback_witness :
    (folderStep { initFolderState 4096
        (folderProtocolTag ++ HEADER_SEPARATOR :: (headerTypeEnd ++ HEADER_SEPARATOR :: []))
        with phase := .waitTotalInfo }).totalExpectedItems = some (-1) :=
  (total_info_skip_fallback.1 _ headerTypeEnd [] rfl (Or.inr (Or.inr rfl)) rfl).2.2.1

set_option maxHeartbeats 2000000 in
/-- C6: `receivedBytesTotal` never decreases across any step of the folder
receiver; the invariant tying it to the ghost list of fully admitted file
sizes holds initially and is preserved by every step; and in the
item-header state — the only state in which END_TRANSFER is processed — the
running total equals the sum of the declared sizes of the fully admitted
FILE items. -/
theorem bytes_total_monotone_and_sum :
    (∀ s : FolderState, s.receivedBytesTotal ≤ (folderStep s).receivedBytesTotal)
    ∧ (∀ (recvBuf : Nat) (stream : List Char), FolderInv (initFolderState recvBuf stream))
    ∧ (∀ s : FolderState, FolderInv s → FolderInv (folderStep s))
    ∧ (∀ s : FolderState, FolderInv s → s.phase = .itemHeader →
        s.receivedBytesTotal = s.completedSizes.sum) := by
  refine ⟨?_, ?_, ?_, ?_⟩
  · intro s
    obtain ⟨inp, ph, items, total, ei, es, cfe, cfr, fo, ts, sr, sd, rb, cs, rs, saw⟩ := s
    cases ph <;>
      simp only [folderStep, processRoot, processTotalInfo, processItemHeader,
        processFolderItem, processFileItem, processFileData, processHandshake,
        failState]
    all_goals repeat' split
    all_goals first
      | exact Nat.le_refl _
      | exact Nat.le_add_right _ _
  · intro recvBuf stream
    exact ⟨rfl, Nat.le_refl 0, fun _ => rfl⟩
  · intro s h
    obtain ⟨inp, ph, items, total, ei, es, cfe, cfr, fo, ts, sr, sd, rb, cs, rs, saw⟩ := s
    obtain ⟨h1, h2, h3⟩ := h
    simp only at h1 h2 h3
    unfold FolderInv
    cases ph
    case waitRoot =>
      have hz : cfr = 0 := h3 (Or.inl rfl)
      subst hz
      simp only [folderStep, processRoot, failState]
      repeat' split
      all_goals exact ⟨h1, Nat.zero_le _, fun _ => rfl⟩
    case waitTotalInfo =>
      have hz : cfr = 0 := h3 (Or.inr (Or.inl rfl))
      subst hz
      simp only [folderStep, processTotalInfo, failState]
      repeat' split
      all_goals exact ⟨h1, Nat.zero_le _, fun _ => rfl⟩
    case itemHeader =>
      have hz : cfr = 0 := h3 (Or.inr (Or.inr rfl))
      subst hz
      simp only [folderStep, processItemHeader, processFolderItem, processFileItem,
        failState]
      repeat' split
      all_goals first
        | exact ⟨h1, Nat.zero_le _, fun _ => rfl⟩
        | (refine ⟨?_, Nat.zero_le _, fun _ => rfl⟩
           simp only [List.sum_append, List.sum_cons, List.sum_nil]
           omega)
    case fileData =>
      simp only [folderStep, processFileData, failState]
      split
      · next hdone =>
        refine ⟨?_, Nat.zero_le _, fun _ => rfl⟩
        simp only [List.sum_append, List.sum_cons, List.sum_nil]
        omega
      · split
        · exact ⟨h1, h2, fun hc => by
            rcases hc with hc | hc | hc <;> exact FolderPhase.noConfusion hc⟩
        · refine ⟨?_, ?_, fun hc => by
            rcases hc with hc | hc | hc <;> exact FolderPhase.noConfusion hc⟩
          · show total + min (min rb (cfe - cfr)) inp.length
                = cs.sum + (cfr + min (min rb (cfe - cfr)) inp.length)
            omega
          · show cfr + min (min rb (cfe - cfr)) inp.length ≤ cfe
            have hbound : min (min rb (cfe - cfr)) inp.length ≤ cfe - cfr :=
              le_trans (min_le_left _ _) (min_le_right _ _)
            omega
    case handshakeReq =>
      exact ⟨h1, h2, fun hc => by
        rcases hc with hc | hc | hc <;> exact FolderPhase.noConfusion hc⟩
    case complete => exact ⟨h1, h2, h3⟩
    case failed => exact ⟨h1, h2, h3⟩
  · intro s h hp
    obtain ⟨h1, h2, h3⟩ := h
    rw [h1, h3 (Or.inr (Or.inr hp))]
    exact Nat.add_zero _

/-- Witness for C6 at a concrete item-header session: total 5 with admitted
sizes 2 and 3. -/
theorem bytes_total_monotone_and_sum_witness :
    ({ initFolderState 4096 [] with
        phase := .itemHeader
        receivedBytesTotal := 5
        completedSizes := [2, 3] } : FolderState).receivedBytesTotal
      = ({ initFolderState 4096 [] with
            phase := .itemHeader
            receivedBytesTotal := 5
            completedSizes := [2, 3] } : FolderState).completedSizes.sum :=
  bytes_total_monotone_and_sum.2.2.2
    { initFolderState 4096 [] with
      phase := .itemHeader
      receivedBytesTotal := 5
      completedSizes := [2, 3] }
    ⟨rfl, Nat.le_refl 0, fun _ => rfl⟩ rfl

/-- C7: a failed or empty sniff read closes the connection with no handler;
a nonempty sniff dispatches to exactly one handler, to the folder handler
precisely when the sniffed bytes begin with the prefix frame, with the
sniffed bytes passed as the handler's carry-over buffer; the sniff reads at
most one header-buffer of bytes. -/
theorem dispatch_classification :
    (classifyConnection none = .closedNoHandler)
    ∧ (classifyConnection (some []) = .closedNoHandler)
    ∧ (∀ b : List Char, b ≠ [] →
        (classifyConnection (some b) = .folderHandler b
          ∨ classifyConnection (some b) = .fileHandler b)
        ∧ (classifyConnection (some b) = .folderHandler b
            ↔ folderSniffTag.isPrefixOf b = true))
    ∧ (∀ stream : List Char,
        sniffRead (some stream) = some (stream.take BUFFER_SIZE_FOR_HEADER)) := by
  refine ⟨rfl, rfl, ?_, fun _ => rfl⟩
  intro b hb
  by_cases hp : folderSniffTag.isPrefixOf b = true
  · exact ⟨Or.inl (by simp [classifyConnection, hb, hp]),
      by simp [classifyConnection, hb, hp]⟩
  · exact ⟨Or.inr (by simp [classifyConnection, hb, hp]),
      by simp [classifyConnection, hb, hp]⟩

/-- Witness for C7 at concrete sniffed bytes carrying the folder prefix. -/
theorem dispatch_classification_witness :
    (classifyConnection (some "FDR_V1|x".data) = .folderHandler "FDR_V1|x".data
      ∨ classifyConnection (some "FDR_V1|x".data) = .fileHandler "FDR_V1|x".data)
    ∧ (classifyConnection (some "FDR_V1|x".data) = .folderHandler "FDR_V1|x".data
        ↔ folderSniffTag.isPrefixOf "FDR_V1|x".data = true) :=
  dispatch_classification.2.2.1 "FDR_V1|x".data (by decide)

/-- If the single-file receive loop ended on an empty recv, fewer than
`filesize` bytes had been received. -/
theorem sfLoop_closed_received_lt (filesize recvBuf : Nat) :
    ∀ (chunks : List (List Char)) (received : Nat),
      (sfLoop filesize recvBuf chunks received).closedEarly = true →
      (sfLoop filesize recvBuf chunks received).received < filesize := by
  intro chunks
  induction chunks with
  | nil => intro received h; exact absurd h (by simp [sfLoop])
  | cons c cs ih =>
    intro received h
    simp only [sfLoop] at h ⊢
    by_cases h1 : filesize ≤ received
    · rw [if_pos h1] at h; exact absurd h (by simp)
    · rw [if_neg h1] at h ⊢
      by_cases h2 : min recvBuf (filesize - received) = 0
      · rw [if_pos h2] at h; exact absurd h (by simp)
      · rw [if_neg h2] at h ⊢
        by_cases h3 : c = []
        · rw [if_pos h3] at h ⊢
          show received < filesize
          omega
        · rw [if_neg h3] at h ⊢
          exact ih _ h

/-- C8: if the peer closed the connection before `filesize` bytes arrived,
the single-file transfer is unsuccessful and the partial destination file
is deleted; a fully received file (byte count equal to `filesize`) is never
deleted by this cleanup. -/
theorem short_read_cleanup (filesize recvBuf : Nat) (carry : List Char)
    (chunks : List (List Char)) :
    ((singleFileBody filesize recvBuf carry chunks).closedEarly = true →
      (singleFileBody filesize recvBuf carry chunks).transferSuccess = false
      ∧ (singleFileBody filesize recvBuf carry chunks).deleted = true)
    ∧ ((singleFileBody filesize recvBuf carry chunks).receivedBytes = filesize →
      (singleFileBody filesize recvBuf carry chunks).deleted = false) := by
  by_cases h0 : filesize = 0
  · subst h0
    exact ⟨fun h => absurd h (by simp [singleFileBody]),
      fun _ => by simp [singleFileBody]⟩
  · constructor
    · intro h
      have hclosed :
          (sfLoop filesize recvBuf chunks (min carry.length filesize)).closedEarly
            = true := by
        simpa [singleFileBody, h0] using h
      have hlt := sfLoop_closed_received_lt filesize recvBuf chunks
        (min carry.length filesize) hclosed
      constructor
      · simp [singleFileBody, h0, hclosed]
      · simp [singleFileBody, h0, hclosed, hlt, Nat.pos_of_ne_zero h0]
    · intro h
      have hrec :
          (sfLoop filesize recvBuf chunks (min carry.length filesize)).received
            = filesize := by
        simpa [singleFileBody, h0] using h
      simp [singleFileBody, h0, hrec]

/-- Witness for C8: a 4-byte file whose peer sends one byte and closes. -/
theorem short_read_cleanup_witness :
    (singleFileBody 4 8 [] [['a'], []]).transferSuccess = false
    ∧ (singleFileBody 4 8 [] [['a'], []]).deleted = true :=
  (short_read_cleanup 4 8 [] [['a'], []]).1 (by rfl)

/-- C9: a declared size of 0 makes the single-file receiver create the
empty file and report success with no data-loop socket request and nothing
deleted; and makes the folder receiver count the item, record it as fully
admitted, keep no file open, add no bytes, and stay in the item-header
state for the next header. -/
theorem zero_byte_file_immediate :
    (∀ (recvBuf : Nat) (carry : List Char) (chunks : List (List Char)),
      singleFileBody 0 recvBuf carry chunks = ⟨0, true, true, false, false, []⟩)
    ∧ (∀ (s : FolderState) (r : List Char),
      s.phase = .itemHeader →
      s.sessionRoot = "r".data →
      s.saveDir = ["received_folders".data, "r".data] →
      s.input = "FDR_V1|FILE|r/f|0|".data ++ r →
      (folderStep s).phase = .itemHeader
      ∧ (folderStep s).itemsReceivedCount = s.itemsReceivedCount + 1
      ∧ (folderStep s).input = r
      ∧ (folderStep s).fileOpen = false
      ∧ (folderStep s).receivedBytesTotal = s.receivedBytesTotal
      ∧ (folderStep s).completedSizes = s.completedSizes ++ [0]) := by
  constructor
  · intro recvBuf carry chunks; rfl
  · intro s r hphase hroot hdir hinput
    obtain ⟨inp, ph, items, total, ei, es, cfe, cfr, fo, ts, sr, sd, rb, cs, rs, saw⟩ := s
    simp only at hphase hroot hdir hinput ⊢
    have hsplit : "FDR_V1|FILE|r/f|0|".data ++ r
        = folderProtocolTag ++ HEADER_SEPARATOR ::
            (headerTypeFile ++ HEADER_SEPARATOR ::
              ("r/f".data ++ HEADER_SEPARATOR :: ("0".data ++ HEADER_SEPARATOR :: r))) := by
      rw [show "FDR_V1|FILE|r/f|0|".data
            = folderProtocolTag ++ HEADER_SEPARATOR ::
                (headerTypeFile ++ HEADER_SEPARATOR ::
                  ("r/f".data ++ HEADER_SEPARATOR :: ("0".data ++ [HEADER_SEPARATOR])))
          from by decide]
      simp
    rw [hsplit] at hinput
    subst hphase
    subst hroot
    subst hdir
    subst hinput
    have e1 := splitAtSep_concat folderProtocolTag
      (headerTypeFile ++ HEADER_SEPARATOR ::
        ("r/f".data ++ HEADER_SEPARATOR :: ("0".data ++ HEADER_SEPARATOR :: r))) (by decide)
    have e2 := splitAtSep_concat headerTypeFile
      ("r/f".data ++ HEADER_SEPARATOR :: ("0".data ++ HEADER_SEPARATOR :: r)) (by decide)
    have e4 := splitAtSep_concat "0".data r (by decide)
    have c1 : (trimWs folderProtocolTag = HANDSHAKE_REQUEST_SIGNAL) = False :=
      eq_false (by decide)
    have c2 : (folderProtocolTag ≠ folderProtocolTag) = False := eq_false (by decide)
    have c3 : (headerTypeFile = headerTypeEnd) = False := eq_false (by decide)
    have c4 : (headerTypeFile = headerTypeFolder ∨ headerTypeFile = headerTypeFile) = True :=
      eq_true (by decide)
    have c5 : (headerTypeFile = headerTypeFolder) = False := eq_false (by decide)
    have erel : relToSessionRoot "r".data "r/f".data = some "f".data := by decide
    have estrip : stripTrailingSlashes "f".data = "f".data := by decide
    have c6 : ("f".data = ([] : List Char)) = False := eq_false (by decide)
    have eint : pyInt? "0".data = some 0 := by decide
    have c7 : ((0 : Int) < 0 ∨ (maxDeclaredFileSize : Int) < 0) = False := eq_false (by decide)
    have esan : sanitize_path ["received_folders".data, "r".data] "f".data
        = .ok ["received_folders".data, "r".data, "f".data] := by decide
    have c8 : (["received_folders".data, "r".data, "f".data]
        = normSegsAbs ["received_folders".data, "r".data]) = False := eq_false (by decide)
    have c9 : ((0 : Int) = 0) = True := eq_true rfl
    simp only [folderStep, processItemHeader, processFileItem, e1, e2, e4, c1, c2, c3,
      c4, c5, erel, estrip, c6, eint, c7, esan, c8, c9, if_true, if_false]
    exact ⟨rfl, rfl, rfl, rfl, rfl, rfl⟩

/-- Witness for C9's folder part at a concrete session. -/
theorem zero_byte_file_immediate_witness :
    (folderStep { initFolderState 4096 ("FDR_V1|FILE|r/f|0|".data ++ []) with
        phase := .itemHeader
        sessionRoot := "r".data
        saveDir := ["received_folders".data, "r".data] }).itemsReceivedCount
      = ({ initFolderState 4096 ("FDR_V1|FILE|r/f|0|".data ++ []) with
            phase := .itemHeader
            sessionRoot := "r".data
            saveDir := ["received_folders".data, "r".data] } :
          FolderState).itemsReceivedCount + 1 :=
  (zero_byte_file_immediate.2 _ [] rfl rfl rfl rfl).2.1

/-- The requested socket read sizes of the single-file loop never exceed
the receiver's configured buffer. -/
theorem sfLoop_requests_le (filesize recvBuf : Nat) :
    ∀ (chunks : List (List Char)) (received : Nat),
      ∀ q ∈ (sfLoop filesize recvBuf chunks received).requests, q ≤ recvBuf := by
  intro chunks
  induction chunks with
  | nil => intro received q hq; exact absurd hq (by simp [sfLoop])
  | cons c cs ih =>
    intro received q hq
    simp only [sfLoop] at hq
    by_cases h1 : filesize ≤ received
    · rw [if_pos h1] at hq; exact absurd hq (by simp)
    · rw [if_neg h1] at hq
      by_cases h2 : min recvBuf (filesize - received) = 0
      · rw [if_pos h2] at hq; exact absurd hq (by simp)
      · rw [if_neg h2] at hq
        by_cases h3 : c = []
        · rw [if_pos h3] at hq
          have : q = min recvBuf (filesize - received) := by
            simpa using hq
          rw [this]; exact min_le_left _ _
        · rw [if_neg h3] at hq
          rcases List.mem_cons.mp hq with hq | hq
          · rw [hq]; exact min_le_left _ _
          · exact ih _ q hq

/-- C10: an unparseable or non-positive buffer-size hint is replaced by the
default 4096; the single-file header parse and the whole receive outcome do
not depend on the hint token at all; and every socket read request of the
data loop is sized by the receiver's own configured buffer. -/
theorem buffer_hint_default_and_ignored :
    (∀ h : List Char, (pyInt? h).all (fun n => decide (n ≤ 0)) = true →
        parseBufferHint h = 4096)
    ∧ (∀ (fname fsStr h1 h2 carry : List Char) (chunks : List (List Char)) (recvBuf : Nat),
        (parseSingleFileHeader fname fsStr h1).map
            (fun hd => singleFileBody hd.filesize recvBuf carry chunks)
          = (parseSingleFileHeader fname fsStr h2).map
            (fun hd => singleFileBody hd.filesize recvBuf carry chunks))
    ∧ (∀ (filesize recvBuf : Nat) (carry : List Char) (chunks : List (List Char)),
        ∀ q ∈ (singleFileBody filesize recvBuf carry chunks).recvRequests, q ≤ recvBuf) := by
  refine ⟨?_, ?_, ?_⟩
  · intro h hyp
    unfold parseBufferHint
    cases hpy : pyInt? h with
    | none => rfl
    | some n =>
      rw [hpy] at hyp
      have hn : n ≤ 0 := by simpa using hyp
      show (if n ≤ 0 then (4096 : Int) else n) = 4096
      rw [if_pos hn]
  · intro fname fsStr h1 h2 carry chunks recvBuf
    unfold parseSingleFileHeader
    cases pyInt? fsStr with
    | none => rfl
    | some n =>
      by_cases hc : n < 0 ∨ (maxDeclaredFileSize : Int) < n
      · show Except.map _ (if n < 0 ∨ (maxDeclaredFileSize : Int) < n then Except.error ()
            else Except.ok (⟨fname, n.toNat, parseBufferHint h1⟩ : SFHeader))
          = Except.map _ (if n < 0 ∨ (maxDeclaredFileSize : Int) < n then Except.error ()
            else Except.ok (⟨fname, n.toNat, parseBufferHint h2⟩ : SFHeader))
        rw [if_pos hc, if_pos hc]
      · show Except.map _ (if n < 0 ∨ (maxDeclaredFileSize : Int) < n then Except.error ()
            else Except.ok (⟨fname, n.toNat, parseBufferHint h1⟩ : SFHeader))
          = Except.map _ (if n < 0 ∨ (maxDeclaredFileSize : Int) < n then Except.error ()
            else Except.ok (⟨fname, n.toNat, parseBufferHint h2⟩ : SFHeader))
        rw [if_neg hc, if_neg hc]
        rfl
  · intro filesize recvBuf carry chunks q hq
    by_cases h0 : filesize = 0
    · subst h0
      exact absurd hq (by simp [singleFileBody])
    · have hq2 : q ∈ (sfLoop filesize recvBuf chunks (min carry.length filesize)).requests := by
        simpa [singleFileBody, h0] using hq
      exact sfLoop_requests_le filesize recvBuf chunks _ q hq2

/-- Witness for C10 at concrete hints: a non-numeric hint and a negative
hint both default to 4096, and a sized request stays within the buffer. -/
theorem buffer_hint_default_and_ignored_witness :
    parseBufferHint "abc".data = 4096 ∧ parseBufferHint "-7".data = 4096 :=
  ⟨buffer_hint_default_and_ignored.1 "abc".data (by decide),
   buffer_hint_default_and_ignored.1 "-7".data (by decide)⟩
